import Mathlib

set_option autoImplicit false

/-!
Shallow embedding of `src/update_feed.py` (a podcast feed updater for
Federal Circuit oral-argument audio).  The feed-store core consists of
`load_existing_guids` (lines 55-64), `add_item_to_feed` (lines 75-105)
and the orchestration in `main` (lines 107-138).  XML documents are
modelled as ordered element trees mirroring `xml.etree.ElementTree`;
Python exceptions are modelled by the `PyError` type; the local mp3
files on disk are modelled by a map from filename to byte size.
-/

/-- An XML element as handled by `xml.etree.ElementTree`: a tag, an
ordered attribute list, optional text, and an ordered list of child
elements. -/
structure XmlElem where
  tag : String
  attrs : List (String × String)
  text : Option String
  children : List XmlElem

/-- Models `Element.find(tag)`: the first direct child with the given
tag, if any. -/
def XmlElem.find (e : XmlElem) (t : String) : Option XmlElem :=
  e.children.find? (fun c => c.tag == t)

/-- Models `Element.findall(tag)`: all direct children with the given
tag, in document order. -/
def XmlElem.findall (e : XmlElem) (t : String) : List XmlElem :=
  e.children.filter (fun c => c.tag == t)

/-- Errors the script can raise, plus the spec's hardened error name.
`parseError` models `xml.etree.ElementTree.ParseError` (unparseable or
missing file); `attributeError` models the `AttributeError` raised when
`root.find("channel")` returns `None` and is then dereferenced.
`malformedDocument` is the error name the spec's hardening requires;
the source never produces it. -/
inductive PyError where
  | parseError
  | attributeError
  | malformedDocument
deriving DecidableEq

/-- Models Python's `str.strip()` on the ASCII whitespace the feed can
contain: drop leading and trailing whitespace characters. -/
def py_strip (s : String) : String :=
  ⟨((s.data.dropWhile Char.isWhitespace).reverse.dropWhile Char.isWhitespace).reverse⟩

/-- A naive `datetime.datetime` value (the script only uses year, month,
day from parsed dates; the time fields are zero for parsed dates). -/
structure Datetime where
  year : Nat
  month : Nat
  day : Nat
  hour : Nat
  minute : Nat
  second : Nat
deriving DecidableEq

/-- A candidate item as built by `discover_mp3_links` (lines 46-51):
the dict with keys `docket`, `title`, `date`, `mp3_url`. -/
structure Case where
  docket : String
  title : String
  date : Datetime
  mp3_url : String
deriving DecidableEq

def pad2 (n : Nat) : String := if n < 10 then "0" ++ toString n else toString n

def pad4 (n : Nat) : String :=
  if n < 10 then "000" ++ toString n
  else if n < 100 then "00" ++ toString n
  else if n < 1000 then "0" ++ toString n
  else toString n

def is_leap (y : Nat) : Bool := (y % 4 == 0 && y % 100 != 0) || y % 400 == 0

def days_before_month (m : Nat) : Nat :=
  [0, 31, 59, 90, 120, 151, 181, 212, 243, 273, 304, 334].getD (m - 1) 0

/-- Proleptic Gregorian ordinal of a date (0001-01-01 has ordinal 1),
as in Python's `date.toordinal`.  Meaningful for year at least 1. -/
def toordinal (y m d : Nat) : Nat :=
  365 * (y - 1) + (y - 1) / 4 + (y - 1) / 400 + days_before_month m
    + (if 2 < m && is_leap y then 1 else 0) + d - (y - 1) / 100

/-- Weekday with Monday = 0, as in Python's `date.weekday()`. -/
def weekday (y m d : Nat) : Nat := (toordinal y m d - 1) % 7

def day_abbr : List String := ["Mon", "Tue", "Wed", "Thu", "Fri", "Sat", "Sun"]

def month_abbr : List String :=
  ["Jan", "Feb", "Mar", "Apr", "May", "Jun", "Jul", "Aug", "Sep", "Oct", "Nov", "Dec"]

/-- Models `email.utils.format_datetime` on a naive datetime (line 95):
the RFC-2822 rendering with zone `-0000`. -/
def format_datetime (dt : Datetime) : String :=
  (day_abbr.getD (weekday dt.year dt.month dt.day) "Mon") ++ ", " ++ pad2 dt.day ++ " "
    ++ (month_abbr.getD (dt.month - 1) "Jan") ++ " " ++ pad4 dt.year ++ " "
    ++ pad2 dt.hour ++ ":" ++ pad2 dt.minute ++ ":" ++ pad2 dt.second ++ " -0000"

example : format_datetime ⟨2024, 3, 1, 0, 0, 0⟩ = "Fri, 01 Mar 2024 00:00:00 -0000" := by decide

example : py_strip "  2024-1001 " = "2024-1001" := by decide

example : (⟨"a", [], none, [⟨"b", [], some "x", []⟩]⟩ : XmlElem).find "b"
    = some ⟨"b", [], some "x", []⟩ := rfl

/-- The fixed re-hosting base URL (line 13). -/
def PODCAST_BASE_URL : String := "https://sneha-s2003.github.io/Federal-Circuit"

/-- Per-item guid extraction performed inside the loop of
`load_existing_guids` (lines 60-63): take the first `guid` child; if it
exists and its text is truthy (present and non-empty), yield the
stripped text; otherwise skip the item. -/
def extract_guid (item : XmlElem) : Option String :=
  match item.find "guid" with
  | some g =>
    match g.text with
    | some t => if t = "" then none else some (py_strip t)
    | none => none
  | none => none

/-- Models `load_existing_guids` (lines 55-64).  The document is the
parsed root element; a missing `channel` child makes the subsequent
`channel.findall("item")` raise `AttributeError`. -/
def load_existing_guids (root : XmlElem) : Except PyError (Finset String) :=
  match root.find "channel" with
  | none => .error .attributeError
  | some channel => .ok ((channel.findall "item").filterMap extract_guid).toFinset

/-- The item nodes of the document's channel, in document order (empty
when there is no channel node). -/
def channel_items (root : XmlElem) : List XmlElem :=
  match root.find "channel" with
  | some channel => channel.findall "item"
  | none => []

/-- The identifiers of the document's entries, in document order, with
the extraction of `load_existing_guids` (items lacking a guid or with
empty guid text contribute nothing). -/
def guid_list (root : XmlElem) : List String :=
  (channel_items root).filterMap extract_guid

/-- The new item node built by `add_item_to_feed` (lines 80-103), with
every field populated as in the source. -/
def new_item (case : Case) (local_filename : String) (file_size : Nat) : XmlElem :=
  { tag := "item", attrs := [], text := none, children :=
    [ { tag := "title", attrs := [], text := some (case.docket ++ " – " ++ case.title),
        children := [] }
    , { tag := "enclosure"
      , attrs := [ ("url", PODCAST_BASE_URL ++ "/" ++ local_filename)
                 , ("length", toString file_size), ("type", "audio/mpeg") ]
      , text := none, children := [] }
    , { tag := "guid", attrs := [("isPermaLink", "false")], text := some case.docket,
        children := [] }
    , { tag := "pubDate", attrs := [], text := some (format_datetime case.date),
        children := [] }
    , { tag := "description", attrs := []
      , text := some ("Oral argument for docket " ++ case.docket ++ ": " ++ case.title ++ ".")
      , children := [] }
    , { tag := "\x7bhttp://www.itunes.com/dtds/podcast-1.0.dtd\x7dexplicit", attrs := []
      , text := some "no", children := [] } ] }

/-- Replace the first element satisfying `p` by its image under `f`;
`none` when no element satisfies `p`.  This captures the effect of
`ET.SubElement(channel, "item")` on the children of the root: the first
`channel` child is mutated in place, everything else is untouched. -/
def replace_first (p : XmlElem → Bool) (f : XmlElem → XmlElem) : List XmlElem → Option (List XmlElem)
  | [] => none
  | x :: xs => if p x then some (f x :: xs) else (replace_first p f xs).map (x :: ·)

/-- Models `add_item_to_feed` (lines 75-105): re-parse the document,
append the new item node as the last child of the (first) channel node,
and write the document back.  A missing channel makes
`ET.SubElement(channel, "item")` raise `AttributeError`.  The returned
element is the document now on disk. -/
def add_item_to_feed (root : XmlElem) (case : Case) (local_filename : String)
    (file_size : Nat) : Except PyError XmlElem :=
  match replace_first (fun c => c.tag == "channel")
      (fun ch => { ch with children := ch.children ++ [new_item case local_filename file_size] })
      root.children with
  | none => .error .attributeError
  | some cs => .ok { root with children := cs }

/-- The dedup step of `main` (line 116):
`new_cases = [c for c in cases if c["docket"] not in existing_guids]`. -/
def select_new (cands : List Case) (existing : Finset String) : List Case :=
  cands.filter (fun c => decide (c.docket ∉ existing))

/-- Per-case body of the loop in `main` (lines 127-135): derive the
local filename from the docket; if the local file is absent, download it
(the downloaded file's size is what `os.path.getsize` then reports);
otherwise skip the fetch and use the existing file's size; then append
the entry.  `files` maps local filenames to their byte sizes; `dl` gives
the size that downloading a given mp3 URL would persist.  Returns the
updated file map, whether a download happened, and the append result. -/
def process_case (dl : String → Nat) (files : String → Option Nat) (doc : XmlElem)
    (c : Case) : (String → Option Nat) × Bool × Except PyError XmlElem :=
  let fn := c.docket ++ ".mp3"
  match files fn with
  | some size => (files, false, add_item_to_feed doc c fn size)
  | none =>
    let size := dl c.mp3_url
    (fun n => if n = fn then some size else files n, true, add_item_to_feed doc c fn size)

/-- State after running the per-case loop: the local files, the on-disk
feed document, the first error if one occurred, and the list of mp3 URLs
that were downloaded, in order. -/
structure RunState where
  files : String → Option Nat
  feed : XmlElem
  err : Option PyError
  downloads : List String

/-- The loop of `main` over the deduplicated work list (lines 123-136),
threading the on-disk document through successive appends. -/
def run_cases (dl : String → Nat) (files : String → Option Nat) (doc : XmlElem) :
    List Case → RunState
  | [] => ⟨files, doc, none, []⟩
  | c :: rest =>
    match process_case dl files doc c with
    | (files1, dled, .error e) => ⟨files1, doc, some e, if dled then [c.mp3_url] else []⟩
    | (files1, dled, .ok doc1) =>
      let r := run_cases dl files1 doc1 rest
      ⟨r.files, r.feed, r.err, (if dled then [c.mp3_url] else []) ++ r.downloads⟩

/-- Outcome of one whole run: the on-disk feed document (`none` models
a feed file that is missing or unparseable, left as it was), the local
files, the first error, and the downloads performed. -/
structure RunOut where
  feed : Option XmlElem
  files : String → Option Nat
  err : Option PyError
  downloads : List String

/-- Models the feed-store part of `main` (lines 107-138): load the
existing guids once (aborting on failure before anything is processed),
compute the work list by the dedup step, then run the per-case loop.
The candidate list stands for the result of `discover_mp3_links`, an
external collaborator. -/
def run_main (feed : Option XmlElem) (files : String → Option Nat) (dl : String → Nat)
    (cases : List Case) : RunOut :=
  match feed with
  | none => ⟨none, files, some .parseError, []⟩
  | some root =>
    match load_existing_guids root with
    | .error e => ⟨some root, files, some e, []⟩
    | .ok existing =>
      let r := run_cases dl files root (select_new cases existing)
      ⟨some r.feed, r.files, r.err, r.downloads⟩

/-- The possible outcomes of the in-place file write on line 105. -/
inductive WriteOutcome where
  | success
  | notWritable
  | failAfter (k : Nat)
deriving DecidableEq

/-- Models `tree.write(feed_path, encoding="utf-8", xml_declaration=True)`
(line 105): the destination is opened for writing, which truncates it,
and the serialized document is then written sequentially, in place;
there is no temporary file and no atomic rename in the source.  `orig`
is the prior on-disk content and `content` the new serialization; if
the open fails (`notWritable`) the file is unchanged, and if the write
stops after `k` characters (`failAfter k`) the file holds the truncated
prefix. -/
def tree_write (orig content : String) : WriteOutcome → String
  | .success => content
  | .notWritable => orig
  | .failAfter k => ⟨content.data.take k⟩

/-- The dedup key a candidate contributes to the stored guid list once
appended: its docket as `load_existing_guids` would read it back. -/
def gkey (c : Case) : Option String :=
  if c.docket = "" then none else some (py_strip c.docket)

theorem rf_of_find {p : XmlElem → Bool} {f : XmlElem → XmlElem} :
    ∀ {l : List XmlElem} {x : XmlElem}, l.find? p = some x →
      ∃ l', replace_first p f l = some l' := by
  intro l
  induction l with
  | nil => intro x h; simp at h
  | cons a as ih =>
    intro x h
    by_cases ha : p a
    · exact ⟨f a :: as, by simp [replace_first, ha]⟩
    · rw [List.find?_cons_of_neg _ (by simp [ha])] at h
      obtain ⟨l', hl'⟩ := ih h
      exact ⟨a :: l', by simp [replace_first, ha, hl']⟩

theorem rf_spec {p : XmlElem → Bool} {f : XmlElem → XmlElem} (hpf : ∀ x, p (f x) = p x) :
    ∀ {l l' : List XmlElem}, replace_first p f l = some l' →
      l'.find? p = (l.find? p).map f ∧
      l'.filter (fun x => !(p x)) = l.filter (fun x => !(p x)) ∧
      l'.length = l.length := by
  intro l
  induction l with
  | nil => intro l' h; simp [replace_first] at h
  | cons a as ih =>
    intro l' h
    by_cases ha : p a
    · simp only [replace_first, ha, if_pos] at h
      injection h with h
      subst h
      refine ⟨?_, ?_, by simp⟩
      · rw [List.find?_cons_of_pos _ (by simp [hpf, ha]),
          List.find?_cons_of_pos _ (by simp [ha])]
        rfl
      · simp [List.filter_cons, hpf a, ha]
    · simp only [replace_first, ha, if_neg, Bool.false_eq_true, not_false_iff,
        Option.map_eq_some'] at h
      obtain ⟨as', has', h⟩ := h
      subst h
      obtain ⟨h1, h2, h3⟩ := ih has'
      refine ⟨?_, ?_, by simp [h3]⟩
      · rw [List.find?_cons_of_neg _ (by simp [ha]),
          List.find?_cons_of_neg _ (by simp [ha]), h1]
      · simp [List.filter_cons, ha, h2]

/-- Structural effect of a successful `add_item_to_feed`: the result is
the same root with the first channel child extended by the new item as
its last child; the root's other fields and its non-channel children
are untouched. -/
theorem add_ok {root ch : XmlElem} (c : Case) (fn : String) (sz : Nat)
    (h : root.find "channel" = some ch) :
    ∃ root', add_item_to_feed root c fn sz = .ok root' ∧
      root'.tag = root.tag ∧ root'.attrs = root.attrs ∧ root'.text = root.text ∧
      root'.find "channel" = some { ch with children := ch.children ++ [new_item c fn sz] } ∧
      root'.children.filter (fun x => !(x.tag == "channel"))
        = root.children.filter (fun x => !(x.tag == "channel")) ∧
      root'.children.length = root.children.length := by
  have hpf : ∀ x : XmlElem,
      ((fun c => c.tag == "channel") ({ x with children := x.children ++ [new_item c fn sz] })) =
        ((fun c => c.tag == "channel") x) := fun x => rfl
  obtain ⟨cs, hcs⟩ := rf_of_find
    (f := fun ch => { ch with children := ch.children ++ [new_item c fn sz] }) h
  obtain ⟨h1, h2, h3⟩ := rf_spec hpf hcs
  refine ⟨{ root with children := cs }, ?_, rfl, rfl, rfl, ?_, h2, h3⟩
  · simp [add_item_to_feed, hcs]
  · show cs.find? _ = _
    rw [h1]
    have : root.children.find? (fun c => c.tag == "channel") = some ch := h
    rw [this]
    rfl

theorem new_item_tag (c : Case) (fn : String) (sz : Nat) : (new_item c fn sz).tag = "item" := rfl

theorem extract_guid_new_item (c : Case) (fn : String) (sz : Nat) :
    extract_guid (new_item c fn sz) = gkey c := rfl

theorem load_eq {root ch : XmlElem} (h : root.find "channel" = some ch) :
    load_existing_guids root = .ok (guid_list root).toFinset := by
  simp [load_existing_guids, h, guid_list, channel_items]

theorem channel_items_of_find {root ch : XmlElem} (h : root.find "channel" = some ch) :
    channel_items root = ch.findall "item" := by
  simp [channel_items, h]

/-- Appending one entry extends the item list by the new item and the
stored guid list by the candidate's dedup key. -/
theorem add_items_and_guids {root ch : XmlElem} {c : Case} {fn : String} {sz : Nat}
    {root' : XmlElem} (h : root.find "channel" = some ch)
    (hch' : root'.find "channel" = some { ch with children := ch.children ++ [new_item c fn sz] }) :
    channel_items root' = channel_items root ++ [new_item c fn sz] ∧
    guid_list root' = guid_list root ++ (gkey c).toList := by
  have hitems : channel_items root' = ch.findall "item" ++ [new_item c fn sz] := by
    rw [channel_items_of_find hch']
    show List.filter _ (ch.children ++ [new_item c fn sz]) = _
    rw [List.filter_append]
    rfl
  constructor
  · rw [hitems, channel_items_of_find h]
  · rw [guid_list, guid_list, hitems, channel_items_of_find h, List.filterMap_append]
    cases hg : gkey c <;>
      simp [extract_guid_new_item, hg]

/-- Running the per-case loop from a document that has a channel node
never errors, keeps the channel present, and extends the stored guid
list by exactly the dedup keys of the processed candidates, in order. -/
theorem run_cases_ok (dl : String → Nat) :
    ∀ (cs : List Case) (files : String → Option Nat) {doc ch : XmlElem},
      doc.find "channel" = some ch →
      (run_cases dl files doc cs).err = none ∧
      ((run_cases dl files doc cs).feed.find "channel").isSome ∧
      guid_list (run_cases dl files doc cs).feed = guid_list doc ++ cs.filterMap gkey := by
  intro cs
  induction cs with
  | nil =>
    intro files doc ch h
    exact ⟨rfl, by simp [run_cases, h], by simp [run_cases]⟩
  | cons c rest ih =>
    intro files doc ch h
    cases hf : files (c.docket ++ ".mp3") with
    | some size =>
      obtain ⟨root', hadd, _, _, _, hch', _, _⟩ :=
        add_ok c (c.docket ++ ".mp3") size h
      obtain ⟨hi, hg⟩ := add_items_and_guids h hch'
      obtain ⟨ih1, ih2, ih3⟩ := ih files hch'
      refine ⟨?_, ?_, ?_⟩
      · simpa [run_cases, process_case, hf, hadd] using ih1
      · simpa [run_cases, process_case, hf, hadd] using ih2
      · have : guid_list (run_cases dl files root' rest).feed
            = guid_list doc ++ (c :: rest).filterMap gkey := by
          rw [ih3, hg, List.filterMap_cons]
          cases hgk : gkey c <;> simp [hgk]
        simpa [run_cases, process_case, hf, hadd] using this
    | none =>
      obtain ⟨root', hadd, _, _, _, hch', _, _⟩ :=
        add_ok c (c.docket ++ ".mp3") (dl c.mp3_url) h
      obtain ⟨hi, hg⟩ := add_items_and_guids h hch'
      obtain ⟨ih1, ih2, ih3⟩ :=
        ih (fun n => if n = c.docket ++ ".mp3" then some (dl c.mp3_url) else files n) hch'
      refine ⟨?_, ?_, ?_⟩
      · simpa [run_cases, process_case, hf, hadd] using ih1
      · simpa [run_cases, process_case, hf, hadd] using ih2
      · have : guid_list (run_cases dl
            (fun n => if n = c.docket ++ ".mp3" then some (dl c.mp3_url) else files n)
            root' rest).feed
            = guid_list doc ++ (c :: rest).filterMap gkey := by
          rw [ih3, hg, List.filterMap_cons]
          cases hgk : gkey c <;> simp [hgk]
        simpa [run_cases, process_case, hf, hadd] using this

/-- Claim C1: the dedup step keeps exactly the candidates whose docket
is absent from the existing-identifier set, preserves discovery order
(it is a sublist of the input), and keeps everything when the existing
set is empty. -/
theorem select_new_correct (cands : List Case) (existing : Finset String) :
    (∀ c, c ∈ select_new cands existing ↔ c ∈ cands ∧ c.docket ∉ existing) ∧
    (select_new cands existing).Sublist cands ∧
    select_new cands (∅ : Finset String) = cands := by
  refine ⟨?_, List.filter_sublist _, ?_⟩
  · intro c
    simp [select_new, List.mem_filter]
  · simp [select_new]

/-- Characterization of the per-item guid extraction. -/
theorem extract_guid_eq_some (item : XmlElem) (s : String) :
    extract_guid item = some s ↔
      ∃ g, item.find "guid" = some g ∧ ∃ t, g.text = some t ∧ t ≠ "" ∧ py_strip t = s := by
  unfold extract_guid
  cases h1 : item.find "guid" with
  | none => simp
  | some g =>
    cases h2 : g.text with
    | none => simp [h2]
    | some t =>
      by_cases h3 : t = "" <;> simp [h2, h3]

/-- Claim C7: on a document with a channel node, `load_existing_guids`
succeeds and returns exactly the set of stripped, non-empty guid texts
of the channel's items; items lacking a guid element or having empty
guid text are skipped, not an error. -/
theorem load_guids_complete (root ch : XmlElem) (h : root.find "channel" = some ch) :
    ∃ S, load_existing_guids root = .ok S ∧
      ∀ s, s ∈ S ↔ ∃ item ∈ ch.findall "item", ∃ g, item.find "guid" = some g ∧
        ∃ t, g.text = some t ∧ t ≠ "" ∧ py_strip t = s := by
  refine ⟨((ch.findall "item").filterMap extract_guid).toFinset,
    by simp [load_existing_guids, h], ?_⟩
  intro s
  rw [List.mem_toFinset, List.mem_filterMap]
  constructor
  · rintro ⟨item, hm, he⟩
    exact ⟨item, hm, (extract_guid_eq_some item s).mp he⟩
  · rintro ⟨item, hm, hg⟩
    exact ⟨item, hm, (extract_guid_eq_some item s).mpr hg⟩

/-- Claim C5: appending an entry to a document with a channel node
leaves the root's fields and its non-channel children untouched, leaves
the channel's tag, attributes, text and non-item children untouched in
order, and extends the channel's item list by exactly the new item at
the end — nothing is reordered or deleted. -/
theorem append_frame (root ch : XmlElem) (c : Case) (fn : String) (sz : Nat)
    (h : root.find "channel" = some ch) :
    ∃ root', add_item_to_feed root c fn sz = .ok root' ∧
      root'.tag = root.tag ∧ root'.attrs = root.attrs ∧ root'.text = root.text ∧
      root'.children.filter (fun x => !(x.tag == "channel"))
        = root.children.filter (fun x => !(x.tag == "channel")) ∧
      ∃ ch', root'.find "channel" = some ch' ∧
        ch'.tag = ch.tag ∧ ch'.attrs = ch.attrs ∧ ch'.text = ch.text ∧
        ch'.children = ch.children ++ [new_item c fn sz] ∧
        ch'.findall "item" = ch.findall "item" ++ [new_item c fn sz] ∧
        ch'.children.filter (fun x => !(x.tag == "item"))
          = ch.children.filter (fun x => !(x.tag == "item")) := by
  obtain ⟨root', hadd, h1, h2, h3, hch', h4, _⟩ := add_ok c fn sz h
  refine ⟨root', hadd, h1, h2, h3, h4, _, hch', rfl, rfl, rfl, rfl, ?_, ?_⟩
  · show List.filter _ (ch.children ++ [new_item c fn sz]) = _
    rw [List.filter_append]
    rfl
  · show List.filter _ (ch.children ++ [new_item c fn sz]) = _
    rw [List.filter_append]
    simp [new_item_tag]

/-- Claim C4 (amended): for a document with a channel node and any
candidate with non-empty identifier — whether or not it is in the
existing-identifier set, since `add_item_to_feed` performs no dedup
check of its own — the append adds exactly one new entry node as the
last child of the channel, populated per the field mapping; afterwards
the existing-identifier set contains the candidate's identifier
stripped of surrounding whitespace (hence the identifier itself
whenever it carries no surrounding whitespace), and the entry count has
increased by exactly one. -/
theorem append_entry_spec (root ch : XmlElem) (c : Case) (fn : String) (sz : Nat)
    (h : root.find "channel" = some ch)
    (hne : c.docket ≠ "") :
    ∃ root', add_item_to_feed root c fn sz = .ok root' ∧
      (∃ ch', root'.find "channel" = some ch' ∧
        ch'.children = ch.children ++ [new_item c fn sz]) ∧
      channel_items root' = channel_items root ++ [new_item c fn sz] ∧
      (channel_items root').length = (channel_items root).length + 1 ∧
      (new_item c fn sz).find "title"
        = some ⟨"title", [], some (c.docket ++ " – " ++ c.title), []⟩ ∧
      (new_item c fn sz).find "enclosure"
        = some ⟨"enclosure",
            [("url", PODCAST_BASE_URL ++ "/" ++ fn), ("length", toString sz),
             ("type", "audio/mpeg")], none, []⟩ ∧
      (new_item c fn sz).find "guid"
        = some ⟨"guid", [("isPermaLink", "false")], some c.docket, []⟩ ∧
      (new_item c fn sz).find "pubDate"
        = some ⟨"pubDate", [], some (format_datetime c.date), []⟩ ∧
      (new_item c fn sz).find "description"
        = some ⟨"description", [],
            some ("Oral argument for docket " ++ c.docket ++ ": " ++ c.title ++ "."), []⟩ ∧
      (new_item c fn sz).find "\x7bhttp://www.itunes.com/dtds/podcast-1.0.dtd\x7dexplicit"
        = some ⟨"\x7bhttp://www.itunes.com/dtds/podcast-1.0.dtd\x7dexplicit", [],
            some "no", []⟩ ∧
      ∃ S, load_existing_guids root' = .ok S ∧ py_strip c.docket ∈ S := by
  obtain ⟨root', hadd, _, _, _, hch', _, _⟩ := add_ok c fn sz h
  obtain ⟨hi, hg⟩ := add_items_and_guids h hch'
  refine ⟨root', hadd, ⟨_, hch', rfl⟩, hi, by rw [hi]; simp, rfl, rfl, rfl, rfl, rfl, rfl, ?_⟩
  refine ⟨_, load_eq hch', ?_⟩
  rw [List.mem_toFinset, hg]
  have hk : gkey c = some (py_strip c.docket) := by simp [gkey, hne]
  simp [hk]

/-- An empty channel and a feed document around it, used as a small
concrete starting state. -/
def chanW : XmlElem := ⟨"channel", [], none, []⟩

def docW : XmlElem := ⟨"rss", [("version", "2.0")], none, [chanW]⟩

/-- A candidate whose docket carries a leading space. -/
def caseW : Case := ⟨" 2024-1001", "Smith v. Jones", ⟨2024, 3, 1, 0, 0, 0⟩, "https://x/a.mp3"⟩

def docW1 : XmlElem :=
  ⟨"rss", [("version", "2.0")], none,
    [⟨"channel", [], none, [new_item caseW " 2024-1001.mp3" 3]⟩]⟩

def guidSetW : Finset String := (["2024-1001"] : List String).toFinset

/-- Claim C4 counterexample: for the candidate with docket
`" 2024-1001"` (not in the empty existing set), the append succeeds but
`load_existing_guids` afterwards contains only the stripped identifier
`"2024-1001"`, not the candidate's identifier — the claim's final
conjunct fails as stated. -/
theorem append_untrimmed_guid_not_in_set :
    caseW.docket ∉ guid_list docW ∧
    add_item_to_feed docW caseW " 2024-1001.mp3" 3 = .ok docW1 ∧
    load_existing_guids docW1 = .ok guidSetW ∧
    caseW.docket ∉ guidSetW := by
  refine ⟨by decide, rfl, rfl, by decide⟩

def chan4 : XmlElem :=
  ⟨"channel", [], none, [⟨"title", [], some "Federal Circuit Oral Arguments", []⟩]⟩

def doc4 : XmlElem := ⟨"rss", [("version", "2.0")], none, [chan4]⟩

def case4 : Case := ⟨"2024-1002", "Smith v. Jones", ⟨2024, 3, 1, 0, 0, 0⟩, "https://x/a.mp3"⟩

theorem append_entry_spec_witness :
    ∃ root', add_item_to_feed doc4 case4 "2024-1002.mp3" 12345 = .ok root' ∧
      (∃ ch', root'.find "channel" = some ch' ∧
        ch'.children = chan4.children ++ [new_item case4 "2024-1002.mp3" 12345]) ∧
      channel_items root' = channel_items doc4 ++ [new_item case4 "2024-1002.mp3" 12345] ∧
      (channel_items root').length = (channel_items doc4).length + 1 ∧
      (new_item case4 "2024-1002.mp3" 12345).find "title"
        = some ⟨"title", [], some (case4.docket ++ " – " ++ case4.title), []⟩ ∧
      (new_item case4 "2024-1002.mp3" 12345).find "enclosure"
        = some ⟨"enclosure",
            [("url", PODCAST_BASE_URL ++ "/" ++ "2024-1002.mp3"), ("length", toString 12345),
             ("type", "audio/mpeg")], none, []⟩ ∧
      (new_item case4 "2024-1002.mp3" 12345).find "guid"
        = some ⟨"guid", [("isPermaLink", "false")], some case4.docket, []⟩ ∧
      (new_item case4 "2024-1002.mp3" 12345).find "pubDate"
        = some ⟨"pubDate", [], some (format_datetime case4.date), []⟩ ∧
      (new_item case4 "2024-1002.mp3" 12345).find "description"
        = some ⟨"description", [],
            some ("Oral argument for docket " ++ case4.docket ++ ": " ++ case4.title ++ "."), []⟩ ∧
      (new_item case4 "2024-1002.mp3" 12345).find "\x7bhttp://www.itunes.com/dtds/podcast-1.0.dtd\x7dexplicit"
        = some ⟨"\x7bhttp://www.itunes.com/dtds/podcast-1.0.dtd\x7dexplicit", [],
            some "no", []⟩ ∧
      ∃ S, load_existing_guids root' = .ok S ∧ py_strip case4.docket ∈ S :=
  append_entry_spec doc4 chan4 case4 "2024-1002.mp3" 12345 rfl (by decide)

theorem mem_filterMap_gkey {l : List Case} {b : String} :
    b ∈ l.filterMap gkey ↔ ∃ c ∈ l, c.docket ≠ "" ∧ py_strip c.docket = b := by
  rw [List.mem_filterMap]
  constructor
  · rintro ⟨c, hc, hg⟩
    by_cases hne : c.docket = ""
    · simp [gkey, hne] at hg
    · simp [gkey, hne] at hg
      exact ⟨c, hc, hne, hg⟩
  · rintro ⟨c, hc, hne, hb⟩
    exact ⟨c, hc, by simp [gkey, hne, hb]⟩

theorem nodup_filterMap_gkey :
    ∀ {l : List Case}, (l.map Case.docket).Nodup →
      (∀ c ∈ l, py_strip c.docket = c.docket) →
      (l.filterMap gkey).Nodup := by
  intro l
  induction l with
  | nil => intro _ _; simp
  | cons c cs ih =>
    intro hn ht
    rw [List.map_cons, List.nodup_cons] at hn
    rw [List.filterMap_cons]
    cases hg : gkey c with
    | none => exact ih hn.2 (fun x hx => ht x (List.mem_cons_of_mem c hx))
    | some b =>
      rw [List.nodup_cons]
      refine ⟨?_, ih hn.2 (fun x hx => ht x (List.mem_cons_of_mem c hx))⟩
      intro hb
      obtain ⟨c', hc', hne', hb'⟩ := mem_filterMap_gkey.mp hb
      have hcb : b = c.docket := by
        by_cases h0 : c.docket = ""
        · simp [gkey, h0] at hg
        · simp [gkey, h0] at hg
          rw [← hg, ht c (List.mem_cons_self c cs)]
      have hcb' : c'.docket = b := by
        rw [← hb', ht c' (List.mem_cons_of_mem c hc')]
      exact hn.1 (hcb ▸ hcb' ▸ List.mem_map_of_mem Case.docket hc')

/-- Claim C2 (amended): a run of the pipeline preserves uniqueness of
the stored entry identifiers provided the candidates' identifiers are
pairwise distinct, non-empty modulo stripping irrelevant (each equals
its stripped form).  Without the pairwise-distinctness hypothesis the
claim fails (see the counterexample): two candidates sharing a docket
are both appended. -/
theorem run_preserves_guid_uniqueness (root ch : XmlElem) (cands : List Case)
    (files : String → Option Nat) (dl : String → Nat)
    (h : root.find "channel" = some ch)
    (h0 : (guid_list root).Nodup)
    (hd : (cands.map Case.docket).Nodup)
    (ht : ∀ c ∈ cands, py_strip c.docket = c.docket) :
    (run_main (some root) files dl cands).err = none ∧
    ∃ d, (run_main (some root) files dl cands).feed = some d ∧ (guid_list d).Nodup := by
  have hload := load_eq h
  obtain ⟨hrc1, hrc2, hrc3⟩ :=
    run_cases_ok dl (select_new cands (guid_list root).toFinset) files h
  have hkept : List.Sublist (select_new cands (guid_list root).toFinset) cands :=
    List.filter_sublist _
  have hkeptmem : ∀ c ∈ select_new cands (guid_list root).toFinset, c ∈ cands :=
    fun c hc => hkept.subset hc
  have hnd2 : ((select_new cands (guid_list root).toFinset).filterMap gkey).Nodup := by
    refine nodup_filterMap_gkey (List.Nodup.sublist (hkept.map Case.docket) hd) ?_
    exact fun c hc => ht c (hkeptmem c hc)
  have hdisj : (guid_list root).Disjoint
      ((select_new cands (guid_list root).toFinset).filterMap gkey) := by
    intro a ha hmem
    obtain ⟨c, hc, hne, hb⟩ := mem_filterMap_gkey.mp hmem
    rw [select_new, List.mem_filter] at hc
    have : c.docket ∉ (guid_list root).toFinset := by
      have := hc.2
      simpa using this
    rw [List.mem_toFinset] at this
    apply this
    rw [← ht c hc.1, hb]
    exact ha
  have hnodup : (guid_list (run_cases dl files root
      (select_new cands (guid_list root).toFinset)).feed).Nodup := by
    rw [hrc3]
    exact List.Nodup.append h0 hnd2 hdisj
  constructor
  · simp only [run_main, hload]
    exact hrc1
  · exact ⟨_, by simp only [run_main, hload], hnodup⟩

def item1 : XmlElem :=
  ⟨"item", [], none, [⟨"guid", [("isPermaLink", "false")], some "2024-1001", []⟩]⟩

def chan2 : XmlElem := ⟨"channel", [], none, [⟨"title", [], some "Feed", []⟩, item1]⟩

def doc2 : XmlElem := ⟨"rss", [], none, [chan2]⟩

def case1 : Case := ⟨"2024-1001", "A v. B", ⟨2024, 2, 9, 0, 0, 0⟩, "https://x/1.mp3"⟩

theorem run_preserves_guid_uniqueness_witness :
    (run_main (some doc2) (fun _ => none) (fun _ => 4) [case1, case4]).err = none ∧
    ∃ d, (run_main (some doc2) (fun _ => none) (fun _ => 4) [case1, case4]).feed = some d ∧
      (guid_list d).Nodup :=
  run_preserves_guid_uniqueness doc2 chan2 [case1, case4] (fun _ => none) (fun _ => 4)
    rfl (by decide) (by decide) (by decide)

def caseA : Case := ⟨"2024-1001", "Smith", ⟨2024, 3, 1, 0, 0, 0⟩, "https://x/a.mp3"⟩

def runC2 : RunOut := run_main (some docW) (fun _ => none) (fun _ => 5) [caseA, caseA]

/-- Claim C2 counterexample: starting from a document whose entry
identifiers are (vacuously) unique, a candidate list containing the
same docket twice makes the run append two entries with the same guid:
the final document's identifier list is not duplicate-free. -/
theorem duplicate_batch_breaks_uniqueness :
    (guid_list docW).Nodup ∧
    runC2.err = none ∧
    runC2.feed.map guid_list = some ["2024-1001", "2024-1001"] ∧
    ¬ (["2024-1001", "2024-1001"] : List String).Nodup :=
  ⟨by decide, rfl, by decide, by decide⟩

/-- Claim C3 (amended): when every candidate's identifier is non-empty
and free of surrounding whitespace, the pipeline is idempotent: the
first run succeeds, and a second run against the same candidate list
loads every candidate's identifier from the updated document, selects
nothing, downloads nothing, and leaves the document exactly as the
first run left it. -/
theorem pipeline_idempotent_of_clean_dockets (root ch : XmlElem) (cands : List Case)
    (files files2 : String → Option Nat) (dl : String → Nat)
    (h : root.find "channel" = some ch)
    (hc : ∀ c ∈ cands, py_strip c.docket = c.docket ∧ c.docket ≠ "") :
    (run_main (some root) files dl cands).err = none ∧
    run_main ((run_main (some root) files dl cands).feed) files2 dl cands =
      ⟨(run_main (some root) files dl cands).feed, files2, none, []⟩ := by
  have hload := load_eq h
  obtain ⟨hrc1, hrc2, hrc3⟩ :=
    run_cases_ok dl (select_new cands (guid_list root).toFinset) files h
  have hfeed : (run_main (some root) files dl cands).feed
      = some (run_cases dl files root (select_new cands (guid_list root).toFinset)).feed := by
    simp only [run_main, hload]
  have herr : (run_main (some root) files dl cands).err = none := by
    simp only [run_main, hload]
    exact hrc1
  obtain ⟨ch1, hch1⟩ := Option.isSome_iff_exists.mp hrc2
  have hload1 := load_eq hch1
  have hall : ∀ c ∈ cands, c.docket ∈
      (guid_list (run_cases dl files root
        (select_new cands (guid_list root).toFinset)).feed).toFinset := by
    intro c hcin
    rw [List.mem_toFinset, hrc3, List.mem_append]
    by_cases hmem : c.docket ∈ (guid_list root).toFinset
    · exact Or.inl (List.mem_toFinset.mp hmem)
    · right
      apply mem_filterMap_gkey.mpr
      refine ⟨c, ?_, (hc c hcin).2, (hc c hcin).1⟩
      rw [select_new, List.mem_filter]
      exact ⟨hcin, by simpa using hmem⟩
  have hsel : select_new cands
      (guid_list (run_cases dl files root
        (select_new cands (guid_list root).toFinset)).feed).toFinset = [] := by
    rw [select_new]
    apply List.filter_eq_nil_iff.mpr
    intro c hcin
    simpa using hall c hcin
  refine ⟨herr, ?_⟩
  rw [hfeed]
  simp only [run_main, hload1, hsel, run_cases]

theorem pipeline_idempotent_witness :
    (run_main (some doc2) (fun _ => none) (fun _ => 4) [case1, case4]).err = none ∧
    run_main ((run_main (some doc2) (fun _ => none) (fun _ => 4) [case1, case4]).feed)
        (fun _ => some 4) (fun _ => 4) [case1, case4] =
      ⟨(run_main (some doc2) (fun _ => none) (fun _ => 4) [case1, case4]).feed,
        (fun _ => some 4), none, []⟩ :=
  pipeline_idempotent_of_clean_dockets doc2 chan2 [case1, case4]
    (fun _ => none) (fun _ => some 4) (fun _ => 4) rfl (by decide)

def runC3a : RunOut := run_main (some docW) (fun _ => none) (fun _ => 7) [caseW]

def runC3b : RunOut := run_main runC3a.feed runC3a.files (fun _ => 7) [caseW]

/-- Claim C3 counterexample: for the candidate whose docket carries a
leading space, the second run against the unchanged remote state is not
a no-op: the stored guid is the stripped text, the candidate's docket
is not in the loaded set, and the entry is appended a second time,
duplicating it. -/
theorem second_run_appends_for_untrimmed_docket :
    runC3a.err = none ∧ runC3b.err = none ∧
    runC3a.feed.map (fun d => (channel_items d).length) = some 1 ∧
    runC3b.feed.map (fun d => (channel_items d).length) = some 2 ∧
    runC3b.feed.map guid_list = some ["2024-1001", "2024-1001"] :=
  ⟨rfl, rfl, by decide, by decide, by decide⟩

/-- Claim C8 (amended): when the feed file is unparseable or its root
has no channel node, the run fails before any entry is processed — the
feed document and local files are unchanged and nothing is downloaded —
but the error is the propagated Python exception (`ParseError` or
`AttributeError`); the source defines no `MalformedDocument` error. -/
theorem load_failure_aborts (file : Option XmlElem) (files : String → Option Nat)
    (dl : String → Nat) (cands : List Case)
    (h : ∀ root, file = some root → root.find "channel" = none) :
    (run_main file files dl cands).feed = file ∧
    (run_main file files dl cands).err.isSome ∧
    (run_main file files dl cands).downloads = [] ∧
    (run_main file files dl cands).files = files := by
  cases file with
  | none => exact ⟨rfl, rfl, rfl, rfl⟩
  | some root =>
    have hch := h root rfl
    have hload : load_existing_guids root = .error .attributeError := by
      simp [load_existing_guids, hch]
    refine ⟨?_, ?_, ?_, ?_⟩ <;> simp [run_main, hload]

theorem load_failure_aborts_witness :
    (run_main none (fun _ => none) (fun _ => 0) [caseA]).feed = none ∧
    (run_main none (fun _ => none) (fun _ => 0) [caseA]).err.isSome ∧
    (run_main none (fun _ => none) (fun _ => 0) [caseA]).downloads = [] ∧
    (run_main none (fun _ => none) (fun _ => 0) [caseA]).files = (fun _ => none) :=
  load_failure_aborts none (fun _ => none) (fun _ => 0) [caseA] (fun _ h => nomatch h)

/-- A root element with no channel child. -/
def docNoChan : XmlElem := ⟨"rss", [], none, [⟨"title", [], some "x", []⟩]⟩

/-- Claim C8 counterexample: the failures are `AttributeError` (missing
channel node) and `ParseError` (unparseable file), never the
`MalformedDocument` error the claim names — the source has no such
error. -/
theorem missing_channel_error_kind :
    load_existing_guids docNoChan = .error .attributeError ∧
    PyError.attributeError ≠ PyError.malformedDocument ∧
    (run_main none (fun _ => none) (fun _ => 0) [caseA]).err = some .parseError ∧
    PyError.parseError ≠ PyError.malformedDocument :=
  ⟨rfl, by decide, rfl, by decide⟩

/-- Claim C9: when the local asset file for a candidate already exists
with some byte size, the per-case step performs no download and leaves
the local files unchanged, yet still appends the entry, whose enclosure
length is the existing file's byte size. -/
theorem existing_asset_skips_download (dl : String → Nat) (files : String → Option Nat)
    (doc ch : XmlElem) (c : Case) (sz : Nat)
    (hf : files (c.docket ++ ".mp3") = some sz)
    (h : doc.find "channel" = some ch) :
    ∃ doc', process_case dl files doc c = (files, false, .ok doc') ∧
      channel_items doc' = channel_items doc ++ [new_item c (c.docket ++ ".mp3") sz] ∧
      (new_item c (c.docket ++ ".mp3") sz).find "enclosure"
        = some ⟨"enclosure",
            [("url", PODCAST_BASE_URL ++ "/" ++ (c.docket ++ ".mp3")),
             ("length", toString sz), ("type", "audio/mpeg")], none, []⟩ := by
  obtain ⟨doc', hadd, _, _, _, hch', _, _⟩ := add_ok c (c.docket ++ ".mp3") sz h
  obtain ⟨hi, _⟩ := add_items_and_guids h hch'
  refine ⟨doc', ?_, hi, rfl⟩
  simp [process_case, hf, hadd]

theorem existing_asset_skips_download_witness :
    ∃ doc', process_case (fun _ => 4)
        (fun n => if n = "2024-1002.mp3" then some 999 else none) doc4 case4 =
        ((fun n => if n = "2024-1002.mp3" then some 999 else none), false, .ok doc') ∧
      channel_items doc' = channel_items doc4 ++ [new_item case4 (case4.docket ++ ".mp3") 999] ∧
      (new_item case4 (case4.docket ++ ".mp3") 999).find "enclosure"
        = some ⟨"enclosure",
            [("url", PODCAST_BASE_URL ++ "/" ++ (case4.docket ++ ".mp3")),
             ("length", toString 999), ("type", "audio/mpeg")], none, []⟩ :=
  existing_asset_skips_download (fun _ => 4)
    (fun n => if n = "2024-1002.mp3" then some 999 else none) doc4 chan4 case4 999
    (by decide) rfl

/-- Claim C10: `add_item_to_feed` writes the candidate's identifier
verbatim as the guid text, while `load_existing_guids` strips stored
guid texts; hence a stored guid whose text differs from a candidate's
identifier only by surrounding whitespace (its stripped text equals the
identifier) puts that identifier into the loaded set, and the dedup
step then suppresses the candidate. -/
theorem strip_mismatch_dedup (root ch item g : XmlElem) (t : String) (c : Case)
    (fn : String) (sz : Nat)
    (hch : root.find "channel" = some ch)
    (hitem : item ∈ ch.findall "item")
    (hg : item.find "guid" = some g)
    (ht : g.text = some t)
    (hne : t ≠ "")
    (heq : py_strip t = c.docket) :
    (new_item c fn sz).find "guid"
      = some ⟨"guid", [("isPermaLink", "false")], some c.docket, []⟩ ∧
    ∃ S, load_existing_guids root = .ok S ∧ c.docket ∈ S ∧
      ∀ cands, c ∉ select_new cands S := by
  have hmemS : c.docket ∈ (guid_list root).toFinset := by
    rw [List.mem_toFinset, guid_list, channel_items_of_find hch]
    exact List.mem_filterMap.mpr
      ⟨item, hitem, (extract_guid_eq_some item c.docket).mpr ⟨g, hg, t, ht, hne, heq⟩⟩
  refine ⟨rfl, (guid_list root).toFinset, load_eq hch, hmemS, ?_⟩
  intro cands hmem
  rw [select_new, List.mem_filter] at hmem
  have h2 := hmem.2
  simp only [decide_eq_true_eq] at h2
  exact h2 hmemS

/-- Claim C6 counterexample: a write that fails after the destination
was already opened (and hence truncated) leaves the on-disk document a
strict prefix of the new serialization — not byte-for-byte the prior
content, contrary to the claim. -/
theorem midwrite_failure_truncates :
    tree_write "<rss>old</rss>" "<rss>newcontent</rss>" (.failAfter 5) = "<rss>" ∧
    ("<rss>" : String) ≠ "<rss>old</rss>" :=
  ⟨by decide, by decide⟩

/-- Claim C6 (amended): the in-place write of line 105 leaves the
document unchanged only when the destination cannot be opened at all;
a failure after opening leaves a truncated prefix of the new
serialization, distinct from both the old and the new document, and no
`PersistenceError` exists in the source — the underlying exception
propagates. -/
theorem write_outcomes :
    (∀ orig content : String, tree_write orig content .notWritable = orig) ∧
    (∀ orig content : String, tree_write orig content .success = content) ∧
    tree_write "<rss>old</rss>" "<rss>newcontent</rss>" (.failAfter 5) = "<rss>" ∧
    ("<rss>" : String) ≠ "<rss>old</rss>" ∧
    ("<rss>" : String) ≠ "<rss>newcontent</rss>" :=
  ⟨fun _ _ => rfl, fun _ _ => rfl, by decide, by decide, by decide⟩

theorem append_frame_witness :
    ∃ root', add_item_to_feed doc2 case4 "f.mp3" 9 = .ok root' ∧
      root'.tag = doc2.tag ∧ root'.attrs = doc2.attrs ∧ root'.text = doc2.text ∧
      root'.children.filter (fun x => !(x.tag == "channel"))
        = doc2.children.filter (fun x => !(x.tag == "channel")) ∧
      ∃ ch', root'.find "channel" = some ch' ∧
        ch'.tag = chan2.tag ∧ ch'.attrs = chan2.attrs ∧ ch'.text = chan2.text ∧
        ch'.children = chan2.children ++ [new_item case4 "f.mp3" 9] ∧
        ch'.findall "item" = chan2.findall "item" ++ [new_item case4 "f.mp3" 9] ∧
        ch'.children.filter (fun x => !(x.tag == "item"))
          = chan2.children.filter (fun x => !(x.tag == "item")) :=
  append_frame doc2 chan2 case4 "f.mp3" 9 rfl

def item_noguid : XmlElem := ⟨"item", [], none, [⟨"title", [], some "no guid", []⟩]⟩

def item_emptyguid : XmlElem := ⟨"item", [], none, [⟨"guid", [], some "", []⟩]⟩

def chan7 : XmlElem := ⟨"channel", [], none, [item1, item_noguid, item_emptyguid]⟩

def doc7 : XmlElem := ⟨"rss", [], none, [chan7]⟩

theorem load_guids_complete_witness :
    ∃ S, load_existing_guids doc7 = .ok S ∧
      ∀ s, s ∈ S ↔ ∃ item ∈ chan7.findall "item", ∃ g, item.find "guid" = some g ∧
        ∃ t, g.text = some t ∧ t ≠ "" ∧ py_strip t = s :=
  load_guids_complete doc7 chan7 rfl

def guidW : XmlElem := ⟨"guid", [("isPermaLink", "false")], some " 2024-1001 ", []⟩

def itemW : XmlElem := ⟨"item", [], none, [guidW]⟩

def chan10 : XmlElem := ⟨"channel", [], none, [itemW]⟩

def doc10 : XmlElem := ⟨"rss", [], none, [chan10]⟩

theorem strip_mismatch_dedup_witness :
    (new_item case1 "f.mp3" 3).find "guid"
      = some ⟨"guid", [("isPermaLink", "false")], some case1.docket, []⟩ ∧
    ∃ S, load_existing_guids doc10 = .ok S ∧ case1.docket ∈ S ∧
      ∀ cands, case1 ∉ select_new cands S :=
  strip_mismatch_dedup doc10 chan10 itemW guidW " 2024-1001 " case1 "f.mp3" 3
    rfl (List.mem_cons_self itemW []) rfl rfl (by decide) (by decide)
